import Mathlib

/-!
# Verification of the roo-scheduler scheduling engine

Shallow embedding of `src/services/scheduler/SchedulerService.ts`
(`calculateNextExecutionTime`, `setupTimerForSchedule`, `executeSchedule`,
`updateSchedule`) over integer timestamps.

Modelling conventions:
* JS `Date` values are milliseconds since the Unix epoch (`Int`).  The clock
  is taken as UTC with a fixed zero offset (no DST); the source's behaviour is
  host-timezone dependent and the spec leaves DST handling
  implementation-defined, so calendar arithmetic (`setMinutes`, `setHours`,
  `setDate`) is exact millisecond arithmetic here.
* String fields that the source parses (`timeInterval` via `parseInt`,
  `startDate`/`startHour`/`startMinute` via the `Date` constructor,
  `lastExecutionTime` via `new Date(...)`) are modelled by their parsed
  numeric values, with `Option` for the missing/empty case (matching the
  source's truthiness guards; note `"0"` is a truthy string, so a parsed `0`
  is `some 0`, not `none`).  Dates are epoch-day counts, hours/minutes are
  numerals in their usual ranges (as the editor UI produces).
* `Math.ceil(a / b)` on exact integer inputs is exact ceiling division
  (double rounding only diverges beyond 2^53, far outside any schedule).
* An unknown `timeUnit` makes the source divide by zero in the catch-up
  branch, producing a JavaScript `Invalid Date`; this is modelled explicitly
  by `JsDateOrNull.invalid`, distinct from the `null` return.
-/

namespace RooScheduler

def minuteMs : Int := 60000
def hourMs : Int := 3600000
def dayMs : Int := 86400000

/-- `Math.ceil(a / b)` for integer `a` and positive integer `b`. -/
def jsCeilDiv (a b : Int) : Int := -((-a) / b)

/-- The weekday flags of a `selectedDays` object (keys `sun..sat`). -/
structure SelectedDays where
  sun : Bool
  mon : Bool
  tue : Bool
  wed : Bool
  thu : Bool
  fri : Bool
  sat : Bool
deriving DecidableEq

/-- `Object.values(selectedDays).some(Boolean)`. -/
def SelectedDays.someTrue (sd : SelectedDays) : Bool :=
  sd.sun || sd.mon || sd.tue || sd.wed || sd.thu || sd.fri || sd.sat

/-- `schedule.selectedDays[dayKey]` for `dayKey` found from the weekday
number `w` through `dayMap` (`sun:0 .. sat:6`); an out-of-range `w`
(e.g. `NaN`) finds no key and the guard fails. -/
def SelectedDays.onDay (sd : SelectedDays) (w : Int) : Bool :=
  if w = 0 then sd.sun
  else if w = 1 then sd.mon
  else if w = 2 then sd.tue
  else if w = 3 then sd.wed
  else if w = 4 then sd.thu
  else if w = 5 then sd.fri
  else if w = 6 then sd.sat
  else false

/-- The `Schedule` interface of `SchedulerService.ts`, fields in source
order; parsed-value modelling as described in the file header. -/
structure Schedule where
  id : String
  name : String
  mode : String
  taskInstructions : String
  scheduleType : String
  timeInterval : Option Int := none
  timeUnit : Option String := none
  selectedDays : Option SelectedDays := none
  startDate : Option Int := none
  startHour : Option Nat := none
  startMinute : Option Nat := none
  expirationDate : Option Int := none
  expirationHour : Option Nat := none
  expirationMinute : Option Nat := none
  requireActivity : Option Bool := none
  active : Option Bool := none
  lastExecutionTime : Option Int := none
deriving DecidableEq

/-- `new Date(startDate + "T" + (startHour||"00") + ":" + (startMinute||"00") + ":00")`,
given the parsed epoch-day count `d` of `startDate`. -/
def startDateTimeOf (s : Schedule) (d : Int) : Int :=
  d * dayMs + (s.startHour.getD 0 : Int) * hourMs + (s.startMinute.getD 0 : Int) * minuteMs

/-- `new Date(expirationDate + "T" + (expirationHour||"23") + ":" + (expirationMinute||"59") + ":59")`. -/
def expirationDateTimeOf (s : Schedule) (e : Int) : Int :=
  e * dayMs + (s.expirationHour.getD 23 : Int) * hourMs
    + (s.expirationMinute.getD 59 : Int) * minuteMs + 59 * 1000

/-- The milliseconds added per step for a time unit, `interval * unitMs`;
`0` for a unit outside `minute`/`hour`/`day` (the `switch` has no default,
leaving `intervalMs = 0` in the catch-up branch and `nextTime` unchanged in
the last-execution branch). -/
def intervalMsOf (unit : String) (interval : Int) : Int :=
  if unit = "minute" then interval * minuteMs
  else if unit = "hour" then interval * hourMs
  else if unit = "day" then interval * dayMs
  else 0

/-- `Date.prototype.getDay` (0 = Sunday) of an epoch-ms instant; the epoch
1970-01-01 was a Thursday (4). -/
def jsGetDay (t : Int) : Int := (t / dayMs + 4) % 7

/-- One step of the selected-days loop:
`nextTime.setDate(getDate()+1); setHours(startHour||0); setMinutes(startMinute||0); setSeconds(0)`.
Moves to the next calendar day, resets hour/minute to the schedule's start
time and seconds to 0; the milliseconds field is left untouched. -/
def advanceDay (s : Schedule) (t : Int) : Int :=
  (t / dayMs + 1) * dayMs + (s.startHour.getD 0 : Int) * hourMs
    + (s.startMinute.getD 0 : Int) * minuteMs + t % 1000

/-- A JavaScript `Date | null` result: `null`, an `Invalid Date` (NaN time
value), or a valid instant. -/
inductive JsDateOrNull where
  | null : JsDateOrNull
  | invalid : JsDateOrNull
  | date : Int → JsDateOrNull
deriving DecidableEq

/-- The `while (daysChecked < 7)` loop: return `nextTime` as soon as its
weekday is selected, otherwise advance a day, at most `fuel` (= 7) times,
then give up with `null`. -/
def dayFilterLoop (s : Schedule) (sd : SelectedDays) : Nat → Int → JsDateOrNull
  | 0, _ => .null
  | fuel + 1, t =>
      if sd.onDay (jsGetDay t) then .date t
      else dayFilterLoop s sd fuel (advanceDay s t)

/-- The selected-days filter applied to the computed `nextTime`.  An
`Invalid Date` input never matches a weekday (`getDay()` is `NaN`) and stays
invalid while advancing, so after 7 checks the loop returns `null`. -/
def applyDayFilter (s : Schedule) (sd : SelectedDays) : Option Int → JsDateOrNull
  | none => .null
  | some t => dayFilterLoop s sd 7 t

/-- Wrap the computed `nextTime` (`none` = Invalid Date) as the function's
return value. -/
def toResult : Option Int → JsDateOrNull
  | none => .invalid
  | some t => .date t

/-- The `nextTime` computed before the selected-days filter (`none` models
the Invalid Date from `Math.ceil(diffMs / 0)` when the unit is unknown):
from `lastExecutionTime + interval` when a prior execution exists, otherwise
from `startDateTime`, jumped forward by `ceil((now - start) / intervalMs)`
whole periods when the start is already past. -/
def nextTimeRaw (s : Schedule) (now interval : Int) (unit : String)
    (startDateTime : Int) : Option Int :=
  match s.lastExecutionTime with
  | some lastExecution => some (lastExecution + intervalMsOf unit interval)
  | none =>
      if now > startDateTime then
        let intervalMs := intervalMsOf unit interval
        if intervalMs = 0 then none
        else some (startDateTime
            + jsCeilDiv (now - startDateTime) intervalMs * intervalMs)
      else some startDateTime

/-- The expiration block: `now > expirationDateTime` when an
`expirationDate` is set, otherwise false. -/
def isExpired (s : Schedule) (now : Int) : Bool :=
  match s.expirationDate with
  | some e => decide (now > expirationDateTimeOf s e)
  | none => false

/-- The trailing selected-days block applied to the computed `nextTime`:
filter only when a `selectedDays` object exists and has some true flag. -/
def applySelectedDays (s : Schedule) (nextTime : Option Int) : JsDateOrNull :=
  match s.selectedDays with
  | some sd =>
      if sd.someTrue then applyDayFilter s sd nextTime
      else toResult nextTime
  | none => toResult nextTime

/-- `SchedulerService.calculateNextExecutionTime(schedule)`, with the
implicit `new Date()` made an explicit `now` argument. -/
def calculateNextExecutionTime (s : Schedule) (now : Int) : JsDateOrNull :=
  match s.timeInterval, s.timeUnit, s.startDate with
  | some interval, some unit, some d =>
      let startDateTime := startDateTimeOf s d
      if isExpired s now then .null
      else if now < startDateTime then .date startDateTime
      else applySelectedDays s (nextTimeRaw s now interval unit startDateTime)
  | _, _, _ => .null

/-- The guard of the selected-days filter,
`schedule.selectedDays && Object.values(schedule.selectedDays).some(Boolean)`. -/
def dayRestrictionActive (s : Schedule) : Bool :=
  match s.selectedDays with
  | some sd => sd.someTrue
  | none => false

/-- Outcome of `processTask` (mode validation, then
`RooService.startTaskWithMode`). -/
inductive TaskOutcome where
  | ok          : TaskOutcome
  | invalidMode : TaskOutcome -- `getModeBySlug` returns null: throws before any start attempt
  | runnerError : TaskOutcome -- `RooService.startTaskWithMode` throws (extension or API unavailable)
deriving DecidableEq

/-- The ambient state read during `executeSchedule`: the `new Date()` at
execution time, the service's `lastActivityTime` field, and how
`processTask` turns out. -/
structure ExecEnv where
  now : Int
  lastActivityTime : Int
  taskOutcome : TaskOutcome
deriving DecidableEq

/-- The observable effects of one `executeSchedule` call. -/
structure ExecResult where
  schedules : List Schedule -- `this.schedules` afterwards
  persisted : Bool          -- whether `saveSchedules` ran
  startTaskCalled : Bool    -- whether `RooService.startTaskWithMode` was invoked
  rearmed : List Schedule   -- arguments of the `setupTimerForSchedule` calls made, in order
deriving DecidableEq

/-- `updateSchedule(scheduleId, { lastExecutionTime })`: replace the first
schedule with a matching id by the merged copy and persist; return
`undefined` (here `none`) without saving when no schedule matches. -/
def updateScheduleLastExecution :
    List Schedule → String → Int → List Schedule × Option Schedule
  | [], _, _ => ([], none)
  | s :: rest, scheduleId, t =>
      if s.id == scheduleId then
        let merged := { s with lastExecutionTime := some t }
        (merged :: rest, some merged)
      else
        let result := updateScheduleLastExecution rest scheduleId t
        (s :: result.1, result.2)

/-- `SchedulerService.executeSchedule(schedule)`.  Inactive schedules return
at once; the activity gate skips without touching any state but rearms; a
`processTask` failure is caught, leaves all state untouched and rearms with
the original schedule; on success `lastExecutionTime` is set through
`updateSchedule` and the timer is rearmed with the merged schedule only when
the id was found in the store. -/
def executeSchedule (schedules : List Schedule) (s : Schedule) (env : ExecEnv) :
    ExecResult :=
  if s.active = some false then
    ⟨schedules, false, false, []⟩
  else if s.requireActivity = some true
      && decide (env.lastActivityTime ≤ s.lastExecutionTime.getD 0) then
    ⟨schedules, false, false, [s]⟩
  else
    match env.taskOutcome with
    | .invalidMode => ⟨schedules, false, false, [s]⟩
    | .runnerError => ⟨schedules, false, true, [s]⟩
    | .ok =>
        match updateScheduleLastExecution schedules s.id env.now with
        | (schedules', some updated) => ⟨schedules', true, true, [updated]⟩
        | (schedules', none) => ⟨schedules', false, true, []⟩

/-- A pending `setTimeout` created by `setupTimerForSchedule`: the callback
closes over the schedule object.  `fireAt = none` models the `NaN` delay
produced by an Invalid Date (an object, hence truthy past the null check;
`NaN <= 0` is false, and `setTimeout` coerces a `NaN` delay). -/
structure TimerEntry where
  scheduleId : String
  schedule : Schedule
  fireAt : Option Int
deriving DecidableEq

/-- Which branch of `setupTimerForSchedule` runs. -/
inductive ArmDecision where
  | inactive : ArmDecision                -- `active === false`: nothing armed
  | notTimeType : ArmDecision             -- `scheduleType !== "time"`: nothing armed
  | noValidTime : ArmDecision             -- calculator returned null: log, nothing armed
  | immediate (s : Schedule) : ArmDecision -- `delay <= 0`: `executeSchedule` invoked directly, no timer set here
  | armed (e : TimerEntry) : ArmDecision  -- `setTimeout` + `timers.set`
deriving DecidableEq

/-- The branch `setupTimerForSchedule(schedule)` takes at clock `now`. -/
def setupTimerDecision (s : Schedule) (now : Int) : ArmDecision :=
  if s.active = some false then .inactive
  else if s.scheduleType = "time" then
    match calculateNextExecutionTime s now with
    | .null => .noValidTime
    | .invalid => .armed ⟨s.id, s, none⟩
    | .date t => if t - now ≤ 0 then .immediate s else .armed ⟨s.id, s, some t⟩
  else .notTimeType

/-- Effect of one `setupTimerForSchedule` call on the list of live (pending)
timers.  When a timer is armed it is appended; `this.timers.set(id, timer)`
only replaces the stored handle and never calls `clearTimeout`, so an
already-live timer for the same schedule id stays pending.  The
`.immediate` branch delegates to `executeSchedule` (modelled separately)
and sets no timer itself. -/
def setupTimerForSchedule (live : List TimerEntry) (s : Schedule) (now : Int) :
    List TimerEntry :=
  match setupTimerDecision s now with
  | .armed e => live ++ [e]
  | _ => live

/-- Modelled from the spec: the `taskInteraction` conflict policy
(spec §3, §4.3) is missing from the engine under `src/` — the source's
`executeSchedule` has no `taskInteraction`, `lastSkippedTime` or
`lastTaskId`; only its tests and the `RooService.hasActiveTask`
collaborator exist.  A schedule as §3 describes it: the source fields plus
the policy fields. -/
structure PolicySchedule where
  base : Schedule
  taskInteraction : String -- "wait" | "interrupt" | "skip"
  inactivityDelay : Option Int
  lastSkippedTime : Option Int
  lastTaskId : Option String
deriving DecidableEq

/-- Modelled from the spec: the environment the §4.3 decision procedure
consults — clock, activity tracker, and the external TaskRunner
(`hasActiveTask`, `startTask` outcome and returned id). -/
structure PolicyEnv where
  now : Int
  lastActivityTime : Int
  hasActiveTask : Bool
  taskOutcome : TaskOutcome
  newTaskId : String
deriving DecidableEq

/-- Modelled from the spec: the observable outcome of one §4.3 execution. -/
structure PolicyResult where
  schedule : PolicySchedule    -- the schedule's bookkeeping afterwards
  persisted : Bool
  startTaskCalled : Bool       -- whether `TaskRunner.startTask` was invoked
  interruptRequested : Bool
  rearmRequested : Bool
  waiting : Bool               -- `wait` policy deferred the run (bounded re-check)
deriving DecidableEq

/-- Modelled from the spec: the §4.3 decision procedure of
`ExecutionCoordinator.execute`, absent from `src/`.  Step 1 is the activity
gate; step 2 branches on `taskInteraction` against the TaskRunner's
`hasActiveTask`; steps 3–4 run the task, updating `lastExecutionTime` and
`lastTaskId` on success only; every outcome requests a rearm. -/
def executeSchedulePolicy (s : PolicySchedule) (env : PolicyEnv) : PolicyResult :=
  if s.base.requireActivity = some true
      && decide (env.lastActivityTime ≤ s.base.lastExecutionTime.getD 0) then
    ⟨s, false, false, false, true, false⟩
  else if s.taskInteraction = "skip" && env.hasActiveTask then
    ⟨{ s with lastSkippedTime := some env.now }, true, false, false, true, false⟩
  else if s.taskInteraction = "wait" && env.hasActiveTask then
    ⟨s, false, false, false, true, true⟩
  else
    let interrupted := s.taskInteraction = "interrupt" && env.hasActiveTask
    match env.taskOutcome with
    | .ok =>
        let base' := { s.base with lastExecutionTime := some env.now }
        ⟨{ s with base := base', lastTaskId := some env.newTaskId },
          true, true, interrupted, true, false⟩
    | .invalidMode => ⟨s, false, false, interrupted, true, false⟩
    | .runnerError => ⟨s, false, true, interrupted, true, false⟩

/-- Days since the epoch of a civil date (proleptic Gregorian), for writing
concrete schedule inputs; standard era-based conversion. -/
def civilDays (y m d : Int) : Int :=
  let yp := if m ≤ 2 then y - 1 else y
  let era := yp / 400
  let yoe := yp - era * 400
  let mp := if m > 2 then m - 3 else m + 9
  let doy := (153 * mp + 2) / 5 + d - 1
  let doe := yoe * 365 + yoe / 4 - yoe / 100 + doy
  era * 146097 + doe - 719468

/-! ## Helper lemmas -/

theorem intervalMsOf_pos {u : String} {i : Int}
    (hu : u = "minute" ∨ u = "hour" ∨ u = "day") (hi : 0 < i) :
    0 < intervalMsOf u i := by
  rcases hu with h | h | h <;>
    simp [intervalMsOf, h, minuteMs, hourMs, dayMs] <;> positivity

theorem jsCeilDiv_one_le {a b : Int} (ha : 0 < a) (hb : 0 < b) :
    1 ≤ jsCeilDiv a b := by
  have h : -a / b < 0 := Int.ediv_neg' (by omega) hb
  unfold jsCeilDiv
  omega

theorem jsCeilDiv_mono {a a' b : Int} (h : a ≤ a') (hb : 0 < b) :
    jsCeilDiv a b ≤ jsCeilDiv a' b := by
  have := Int.ediv_le_ediv hb (show -a' ≤ -a by omega)
  unfold jsCeilDiv
  omega

theorem lt_advanceDay (s : Schedule) (t : Int) : t < advanceDay s t := by
  have h1 : (86400000 : Int) * (t / 86400000) + t % 86400000 = t :=
    Int.ediv_add_emod t 86400000
  have h2 : t % 86400000 < 86400000 := Int.emod_lt_of_pos t (by norm_num)
  have h3 : (0 : Int) ≤ t % 1000 := Int.emod_nonneg t (by norm_num)
  have h4 : (0 : Int) ≤ (s.startHour.getD 0 : Int) := Int.ofNat_nonneg _
  have h5 : (0 : Int) ≤ (s.startMinute.getD 0 : Int) := Int.ofNat_nonneg _
  unfold advanceDay dayMs hourMs minuteMs
  nlinarith

theorem dayFilterLoop_le (s : Schedule) (sd : SelectedDays) (fuel : Nat) :
    ∀ t t' : Int, dayFilterLoop s sd fuel t = .date t' → t ≤ t' := by
  induction fuel with
  | zero => intro t t' h; simp [dayFilterLoop] at h
  | succ n ih =>
      intro t t' h
      unfold dayFilterLoop at h
      split at h
      · cases h; exact le_refl t
      · exact le_trans (le_of_lt (lt_advanceDay s t)) (ih _ _ h)

theorem applyDayFilter_le (s : Schedule) (sd : SelectedDays) (t t' : Int)
    (h : applyDayFilter s sd (some t) = .date t') : t ≤ t' :=
  dayFilterLoop_le s sd 7 t t' h

/-- Branch characterization: with the selected-days filter inactive, the
function returns null when expired, the start when it is still ahead, and
the raw `nextTime` otherwise. -/
theorem calc_no_restrict (s : Schedule) (now : Int) {i : Int} {u : String}
    {d : Int} (h1 : s.timeInterval = some i) (h2 : s.timeUnit = some u)
    (h3 : s.startDate = some d) (hday : dayRestrictionActive s = false) :
    calculateNextExecutionTime s now =
      if isExpired s now then .null
      else if now < startDateTimeOf s d then .date (startDateTimeOf s d)
      else toResult (nextTimeRaw s now i u (startDateTimeOf s d)) := by
  unfold calculateNextExecutionTime
  rw [h1, h2, h3]
  unfold dayRestrictionActive at hday
  unfold applySelectedDays
  cases hsd : s.selectedDays with
  | none => simp
  | some sd =>
      rw [hsd] at hday
      simp only [] at hday
      simp [hday]

theorem applySelectedDays_date_le (s : Schedule) (v t : Int)
    (h : applySelectedDays s (some v) = .date t) : v ≤ t := by
  unfold applySelectedDays at h
  cases hsd : s.selectedDays with
  | none =>
      rw [hsd] at h
      simp [toResult] at h
      omega
  | some sd =>
      rw [hsd] at h
      simp only [] at h
      by_cases hst : sd.someTrue = true
      · rw [if_pos hst] at h
        exact applyDayFilter_le s sd v t h
      · rw [if_neg hst] at h
        simp [toResult] at h
        omega

theorem dayFilterLoop_ne_invalid (s : Schedule) (sd : SelectedDays) (fuel : Nat) :
    ∀ t : Int, dayFilterLoop s sd fuel t ≠ .invalid := by
  induction fuel with
  | zero => intro t; simp [dayFilterLoop]
  | succ n ih =>
      intro t
      unfold dayFilterLoop
      split
      · simp
      · exact ih _

theorem applySelectedDays_ne_invalid (s : Schedule) (v : Int) :
    applySelectedDays s (some v) ≠ .invalid := by
  unfold applySelectedDays
  cases s.selectedDays with
  | none => simp [toResult]
  | some sd =>
      simp only []
      by_cases hst : sd.someTrue = true
      · rw [if_pos hst]
        exact dayFilterLoop_ne_invalid s sd 7 v
      · rw [if_neg hst]
        simp [toResult]

/-- The raw `nextTime` exists and lies at or after the start (strictly after
a recorded prior execution) once the interval is a positive amount of a
known unit, the start is not ahead of `now`, and a recorded prior execution
is not before the start. -/
theorem nextTimeRaw_bounds (s : Schedule) (now i : Int) (u : String) (st : Int)
    (hi : 0 < i) (hu : u = "minute" ∨ u = "hour" ∨ u = "day")
    (hsane : ∀ le ∈ s.lastExecutionTime, st ≤ le) :
    ∃ v, nextTimeRaw s now i u st = some v ∧ st ≤ v ∧
      ∀ le ∈ s.lastExecutionTime, le < v := by
  have hims : 0 < intervalMsOf u i := intervalMsOf_pos hu hi
  unfold nextTimeRaw
  cases hle : s.lastExecutionTime with
  | some le =>
      rw [hle] at hsane
      refine ⟨le + intervalMsOf u i, rfl, ?_, ?_⟩
      · have := hsane le rfl
        omega
      · intro le' hle'
        simp at hle'
        subst hle'
        omega
  | none =>
      by_cases hgt : now > st
      · have hceil : 1 ≤ jsCeilDiv (now - st) (intervalMsOf u i) :=
          jsCeilDiv_one_le (by omega) hims
        refine ⟨st + jsCeilDiv (now - st) (intervalMsOf u i) * intervalMsOf u i,
          ?_, ?_, ?_⟩
        · simp [hgt, hims.ne']
        · nlinarith
        · intro le' hle'
          simp at hle'
      · refine ⟨st, by simp [hgt], le_refl st, ?_⟩
        intro le' hle'
        simp at hle'

/-- Unfolding of the calculator once the three required fields are present. -/
theorem calc_eq_branches (s : Schedule) (now : Int) {i d : Int} {u : String}
    (h1 : s.timeInterval = some i) (h2 : s.timeUnit = some u)
    (h3 : s.startDate = some d) :
    calculateNextExecutionTime s now =
      if isExpired s now then .null
      else if now < startDateTimeOf s d then .date (startDateTimeOf s d)
      else applySelectedDays s (nextTimeRaw s now i u (startDateTimeOf s d)) := by
  unfold calculateNextExecutionTime
  rw [h1, h2, h3]

/-- `updateSchedule` finds a schedule whenever some entry has the id. -/
theorem updateSchedule_found (l : List Schedule) (t : Int)
    (scheduleId : String)
    (h : ∃ x ∈ l, x.id = scheduleId) :
    (updateScheduleLastExecution l scheduleId t).2.isSome := by
  induction l with
  | nil => simp at h
  | cons a rest ih =>
      unfold updateScheduleLastExecution
      by_cases ha : a.id == scheduleId
      · simp [ha]
      · simp only [ha, Bool.false_eq_true, if_false]
        rcases h with ⟨x, hx, hxid⟩
        cases hx with
        | head => exact absurd (by simp [hxid]) ha
        | tail _ hmem => exact ih ⟨x, hmem, hxid⟩

/-! ## Claims -/

/-- Scenario A's schedule: daily at 09:00 from 2025-04-10 (epoch day 20188),
no prior execution. -/
def scheduleA : Schedule :=
  { id := "schedule1", name := "Daily Task", mode := "code",
    taskInstructions := "Run daily task", scheduleType := "time",
    timeInterval := some 1, timeUnit := some "day",
    startDate := some (civilDays 2025 4 10), startHour := some 9,
    startMinute := some 0 }

/-- 2025-04-11T10:00. -/
def nowScenarioA : Int := civilDays 2025 4 11 * dayMs + 10 * hourMs

/-- Claim C1 (amended: additionally requires the weekday restriction to be
inactive).  For a schedule with a positive interval of a known unit, a start
date, no prior execution, not expired, whose start is strictly in the past
of `now`, and with no active selected-days restriction,
`calculateNextExecutionTime` returns the start advanced by
`ceil((now - start) / intervalMs)` whole periods. -/
theorem c1_catchup_jump (s : Schedule) (now : Int) {i d : Int} {u : String}
    (h1 : s.timeInterval = some i) (hi : 0 < i)
    (h2 : s.timeUnit = some u) (hu : u = "minute" ∨ u = "hour" ∨ u = "day")
    (h3 : s.startDate = some d) (hle : s.lastExecutionTime = none)
    (hexp : isExpired s now = false)
    (hday : dayRestrictionActive s = false)
    (hpast : startDateTimeOf s d < now) :
    calculateNextExecutionTime s now =
      .date (startDateTimeOf s d
        + jsCeilDiv (now - startDateTimeOf s d) (intervalMsOf u i)
          * intervalMsOf u i) := by
  have hims : 0 < intervalMsOf u i := intervalMsOf_pos hu hi
  have hnl : ¬ now < startDateTimeOf s d := not_lt.2 (le_of_lt hpast)
  rw [calc_no_restrict s now h1 h2 h3 hday]
  simp [hexp, hnl, nextTimeRaw, hle, hpast, hims.ne', toResult]

/-- Witness for C1: Scenario A concretely — daily schedule started
2025-04-10T09:00, `now` = 2025-04-11T10:00, next = 2025-04-12T09:00. -/
theorem c1_catchup_jump_witness :
    calculateNextExecutionTime scheduleA nowScenarioA = .date 1744448400000 := by
  have h := @c1_catchup_jump scheduleA nowScenarioA 1 (civilDays 2025 4 10) "day"
    rfl (by norm_num) rfl (Or.inr (Or.inr rfl)) rfl rfl rfl rfl (by decide)
  rw [h]
  decide

/-- Scenario A's schedule restricted to Sundays only. -/
def scheduleC1x : Schedule :=
  { scheduleA with
    id := "c1x",
    selectedDays := some ⟨true, false, false, false, false, false, false⟩ }

/-- Counterexample to claim C1 as stated: all hypotheses of the claim hold (fields set, no
prior execution, not expired, start strictly past), yet with a Sunday-only
day restriction the result is Sunday 2025-04-13T09:00, not the start
advanced by whole periods (Saturday 2025-04-12T09:00). -/
theorem c1_counterexample :
    scheduleC1x.timeInterval = some 1 ∧
    scheduleC1x.timeUnit = some "day" ∧
    scheduleC1x.startDate = some (civilDays 2025 4 10) ∧
    scheduleC1x.lastExecutionTime = none ∧
    isExpired scheduleC1x nowScenarioA = false ∧
    startDateTimeOf scheduleC1x (civilDays 2025 4 10) < nowScenarioA ∧
    calculateNextExecutionTime scheduleC1x nowScenarioA = .date 1744534800000 ∧
    startDateTimeOf scheduleC1x (civilDays 2025 4 10)
      + jsCeilDiv (nowScenarioA - startDateTimeOf scheduleC1x (civilDays 2025 4 10))
          (intervalMsOf "day" 1) * intervalMsOf "day" 1 = 1744448400000 ∧
    (1744534800000 : Int) ≠ 1744448400000 := by
  decide

/-- A schedule whose start (2025-04-12T09:00) is still ahead. -/
def scheduleC2x : Schedule :=
  { id := "c2x", name := "Future Start", mode := "code",
    taskInstructions := "x", scheduleType := "time",
    timeInterval := some 1, timeUnit := some "day",
    startDate := some (civilDays 2025 4 12), startHour := some 9,
    startMinute := some 0 }

/-- 2025-04-11T10:00, before the start of `scheduleC2x`. -/
def nowC2x : Int := civilDays 2025 4 11 * dayMs + 10 * hourMs

/-- Counterexample to claim C2 as stated: with no prior execution or skip recorded the
effective reference is `startDateTime` itself, and for a start still ahead
the calculator returns exactly that instant — equal to, not strictly after,
the reference. -/
theorem c2_counterexample :
    scheduleC2x.lastExecutionTime = none ∧
    calculateNextExecutionTime scheduleC2x nowC2x
      = .date (startDateTimeOf scheduleC2x (civilDays 2025 4 12)) ∧
    ¬ (startDateTimeOf scheduleC2x (civilDays 2025 4 12)
        < startDateTimeOf scheduleC2x (civilDays 2025 4 12)) := by
  decide

/-- Claim C2 (amended: `lastSkippedTime` does not exist in this code; the
result is *at or after* the reference — equality only for the initial fire
at `startDateTime` — and strictly after `lastExecutionTime` whenever a
prior execution is recorded, given a positive interval of a known unit and
bookkeeping with `startDateTime ≤ lastExecutionTime ≤ now`). -/
theorem c2_reference_bound (s : Schedule) (now : Int) {i d : Int} {u : String}
    (h1 : s.timeInterval = some i) (hi : 0 < i)
    (h2 : s.timeUnit = some u) (hu : u = "minute" ∨ u = "hour" ∨ u = "day")
    (h3 : s.startDate = some d)
    (hsane : ∀ le ∈ s.lastExecutionTime, startDateTimeOf s d ≤ le ∧ le ≤ now)
    {t : Int} (h : calculateNextExecutionTime s now = .date t) :
    startDateTimeOf s d ≤ t ∧ ∀ le ∈ s.lastExecutionTime, le < t := by
  rw [calc_eq_branches s now h1 h2 h3] at h
  by_cases hex : isExpired s now = true
  · rw [if_pos hex] at h
    cases h
  · rw [if_neg hex] at h
    by_cases hfut : now < startDateTimeOf s d
    · rw [if_pos hfut] at h
      have ht : startDateTimeOf s d = t := by
        cases h
        rfl
      refine ⟨le_of_eq ht, ?_⟩
      intro le hle
      have := hsane le hle
      omega
    · rw [if_neg hfut] at h
      obtain ⟨v, hv, hstv, hltv⟩ := nextTimeRaw_bounds s now i u
        (startDateTimeOf s d) hi hu (fun le hle => (hsane le hle).1)
      rw [hv] at h
      have hvt := applySelectedDays_date_le s v t h
      exact ⟨le_trans hstv hvt, fun le hle => lt_of_lt_of_le (hltv le hle) hvt⟩

/-- Scenario-A-like schedule that already ran at 2025-04-11T08:00. -/
def scheduleC2w : Schedule :=
  { id := "c2w", name := "Daily Task", mode := "code",
    taskInstructions := "x", scheduleType := "time",
    timeInterval := some 1, timeUnit := some "day",
    startDate := some (civilDays 2025 4 10), startHour := some 9,
    startMinute := some 0,
    lastExecutionTime := some (civilDays 2025 4 11 * dayMs + 8 * hourMs) }

/-- Witness for C2: the concrete result 2025-04-12T08:00 is at or after the
start and strictly after the recorded last execution. -/
theorem c2_reference_bound_witness :
    startDateTimeOf scheduleC2w (civilDays 2025 4 10) ≤ 1744444800000 ∧
    ∀ le ∈ scheduleC2w.lastExecutionTime, le < 1744444800000 :=
  @c2_reference_bound scheduleC2w (civilDays 2025 4 11 * dayMs + 10 * hourMs)
    1 (civilDays 2025 4 10) "day" rfl (by norm_num) rfl (Or.inr (Or.inr rfl))
    rfl (by decide) 1744444800000 (by decide)

/-- The raw `nextTime` is a valid instant whenever the divisor is nonzero. -/
theorem nextTimeRaw_some (s : Schedule) (now i : Int) (u : String) (st : Int)
    (h : intervalMsOf u i ≠ 0) : ∃ v, nextTimeRaw s now i u st = some v := by
  unfold nextTimeRaw
  cases s.lastExecutionTime with
  | some le => exact ⟨_, rfl⟩
  | none =>
      by_cases hgt : now > st
      · exact ⟨st + jsCeilDiv (now - st) (intervalMsOf u i) * intervalMsOf u i,
          by simp [hgt, h]⟩
      · exact ⟨st, by simp [hgt]⟩

/-- A daily schedule whose `selectedDays` object exists with every flag
false. -/
def scheduleC9 : Schedule :=
  { id := "c9", name := "AllFalse", mode := "code",
    taskInstructions := "x", scheduleType := "time",
    timeInterval := some 1, timeUnit := some "day",
    selectedDays := some ⟨false, false, false, false, false, false, false⟩,
    startDate := some (civilDays 2025 4 10), startHour := some 9,
    startMinute := some 0 }

/-- Claim C9: an all-false `selectedDays` fails the
`Object.values(...).some(Boolean)` guard, so the weekday filter is skipped
entirely and the result equals the computation with `selectedDays` absent. -/
theorem c9_all_false_no_restriction (s : Schedule) (now : Int)
    {sd : SelectedDays} (hsd : s.selectedDays = some sd)
    (hall : sd.someTrue = false) :
    calculateNextExecutionTime s now =
      calculateNextExecutionTime { s with selectedDays := none } now := by
  cases s with
  | mk sid sname smode sinstr stype sti stu ssd ssdt ssh ssm sed seh sem
      sra sac slet =>
      simp only [Schedule.selectedDays] at hsd
      subst hsd
      simp [calculateNextExecutionTime, applySelectedDays, isExpired,
        startDateTimeOf, expirationDateTimeOf, nextTimeRaw, hall, toResult]

/-- Witness for C9: the all-false schedule computes exactly what its
unrestricted copy computes. -/
theorem c9_all_false_no_restriction_witness :
    calculateNextExecutionTime scheduleC9 1744365600000 =
      calculateNextExecutionTime { scheduleC9 with selectedDays := none }
        1744365600000 :=
  c9_all_false_no_restriction scheduleC9 1744365600000 rfl rfl

/-- Claim C10: for a parsed positive interval and a unit among
minute/hour/day, the catch-up divisor `intervalMs` is strictly positive,
the ceiling division is positive for positive elapsed time, the calculator
never produces the Invalid-Date value of the division-by-zero branch, and
`intervalMs = 0` occurs exactly for units outside that set. -/
theorem c10_interval_divisor (s : Schedule) (now : Int) {i : Int} {u : String}
    (h1 : s.timeInterval = some i) (hi : 0 < i)
    (h2 : s.timeUnit = some u) (hu : u = "minute" ∨ u = "hour" ∨ u = "day") :
    0 < intervalMsOf u i ∧
    (∀ a : Int, 0 < a → 0 < jsCeilDiv a (intervalMsOf u i)) ∧
    calculateNextExecutionTime s now ≠ .invalid ∧
    (∀ u' : String, intervalMsOf u' i = 0 ↔
      ¬ (u' = "minute" ∨ u' = "hour" ∨ u' = "day")) := by
  have hims := intervalMsOf_pos hu hi
  refine ⟨hims, fun a ha => lt_of_lt_of_le one_pos (jsCeilDiv_one_le ha hims),
    ?_, ?_⟩
  · cases h3 : s.startDate with
    | none => simp [calculateNextExecutionTime, h1, h2, h3]
    | some d =>
        rw [calc_eq_branches s now h1 h2 h3]
        by_cases hex : isExpired s now = true
        · simp [hex]
        · rw [if_neg hex]
          by_cases hfut : now < startDateTimeOf s d
          · simp [hfut]
          · rw [if_neg hfut]
            obtain ⟨v, hv⟩ := nextTimeRaw_some s now i u
              (startDateTimeOf s d) hims.ne'
            rw [hv]
            exact applySelectedDays_ne_invalid s v
  · intro u'
    constructor
    · intro h0
      by_contra hv
      rcases hv with h | h | h <;> subst h <;>
        simp [intervalMsOf, minuteMs, hourMs, dayMs] at h0 <;> omega
    · intro hv
      push_neg at hv
      obtain ⟨hm, hh, hd⟩ := hv
      simp [intervalMsOf, hm, hh, hd]

/-- Witness for C10 at the Scenario A schedule. -/
theorem c10_interval_divisor_witness :
    0 < intervalMsOf "day" 1 ∧
    (∀ a : Int, 0 < a → 0 < jsCeilDiv a (intervalMsOf "day" 1)) ∧
    calculateNextExecutionTime scheduleA 1744365600000 ≠ .invalid ∧
    (∀ u' : String, intervalMsOf u' 1 = 0 ↔
      ¬ (u' = "minute" ∨ u' = "hour" ∨ u' = "day")) :=
  @c10_interval_divisor scheduleA 1744365600000 1 "day" rfl (by norm_num) rfl
    (Or.inr (Or.inr rfl))

/-- An active time schedule whose next fire (2025-04-12T09:00) is ahead of
2025-04-11T10:00. -/
def scheduleC3 : Schedule :=
  { id := "c3", name := "Rearm", mode := "code",
    taskInstructions := "x", scheduleType := "time",
    timeInterval := some 1, timeUnit := some "day",
    startDate := some (civilDays 2025 4 12), startHour := some 9,
    startMinute := some 0 }

/-- Claim C3, refuted (code bug): calling `setupTimerForSchedule` twice in succession for the same
schedule leaves TWO live timers for its id — `timers.set` overwrites the
stored handle without any `clearTimeout`, so the first pending `setTimeout`
is never cancelled.  This refutes the claimed cancel-before-arm invariant. -/
theorem c3_double_arm_two_live_timers :
    setupTimerForSchedule
        (setupTimerForSchedule [] scheduleC3 1744365600000)
        scheduleC3 1744365600000
      = [⟨"c3", scheduleC3, some 1744448400000⟩,
         ⟨"c3", scheduleC3, some 1744448400000⟩] := by
  decide

/-- Claim C5 (amended: past the *constructed* expiration instant — the
configured date at `hour:minute:59` — the calculator returns null and
`setupTimerForSchedule` arms nothing; the dropped conjunct about executions
is refuted by the counterexample). -/
theorem c5_expired_never_arms (s : Schedule) (now : Int) {e : Int}
    (he : s.expirationDate = some e)
    (hexp : expirationDateTimeOf s e < now) :
    calculateNextExecutionTime s now = .null ∧
    ∀ live : List TimerEntry, setupTimerForSchedule live s now = live := by
  have hex : isExpired s now = true := by
    unfold isExpired
    rw [he]
    simp [hexp]
  have hnull : calculateNextExecutionTime s now = .null := by
    cases h1 : s.timeInterval with
    | none => simp [calculateNextExecutionTime, h1]
    | some i =>
        cases h2 : s.timeUnit with
        | none => simp [calculateNextExecutionTime, h1, h2]
        | some u =>
            cases h3 : s.startDate with
            | none => simp [calculateNextExecutionTime, h1, h2, h3]
            | some d => rw [calc_eq_branches s now h1 h2 h3, if_pos hex]
  refine ⟨hnull, fun live => ?_⟩
  unfold setupTimerForSchedule setupTimerDecision
  by_cases ha : s.active = some false
  · simp [ha]
  · by_cases ht : s.scheduleType = "time"
    · simp [ha, ht, hnull]
    · simp [ha, ht]

/-- Scenario C's schedule: daily from 2025-04-10T09:00, expiring
2025-04-20 at 17:00. -/
def scheduleC5 : Schedule :=
  { id := "c5", name := "Task with Expiration", mode := "code",
    taskInstructions := "x", scheduleType := "time",
    timeInterval := some 1, timeUnit := some "day",
    startDate := some (civilDays 2025 4 10), startHour := some 9,
    startMinute := some 0,
    expirationDate := some (civilDays 2025 4 20), expirationHour := some 17,
    expirationMinute := some 0 }

/-- Witness for C5: Scenario C — at 2025-04-21T00:00 the expired schedule
computes null and nothing is armed. -/
theorem c5_expired_never_arms_witness :
    calculateNextExecutionTime scheduleC5 1745193600000 = .null ∧
    ∀ live : List TimerEntry,
      setupTimerForSchedule live scheduleC5 1745193600000 = live :=
  @c5_expired_never_arms scheduleC5 1745193600000 (civilDays 2025 4 20) rfl
    (by decide)

/-- Scenario C's schedule after an execution at 2025-04-20T09:00. -/
def scheduleC5x : Schedule :=
  { id := "c5x", name := "Expires", mode := "code",
    taskInstructions := "x", scheduleType := "time",
    timeInterval := some 1, timeUnit := some "day",
    startDate := some (civilDays 2025 4 10), startHour := some 9,
    startMinute := some 0,
    expirationDate := some (civilDays 2025 4 20), expirationHour := some 17,
    expirationMinute := some 0,
    lastExecutionTime := some (civilDays 2025 4 20 * dayMs + 9 * hourMs) }

/-- Counterexample to claim C5 as stated: arming at 2025-04-20T09:30 (before the 17:00:59
expiry) sets a timer for 2025-04-21T09:00 — beyond the expiration instant —
and when that timer fires, `executeSchedule` starts the task without any
expiration re-check: an execution does occur after `expirationDateTime`. -/
theorem c5_counterexample :
    setupTimerForSchedule [] scheduleC5x 1745141400000
      = [⟨"c5x", scheduleC5x, some 1745226000000⟩] ∧
    expirationDateTimeOf scheduleC5x (civilDays 2025 4 20) < 1745226000000 ∧
    (executeSchedule [scheduleC5x] scheduleC5x
        ⟨1745226000000, 0, .ok⟩).startTaskCalled = true := by
  decide

/-- Claim C6 (amended: the schedule must not be explicitly inactive —
`active === false` returns before the activity gate, and then no rearm is
requested).  With the gate active and no activity since the last execution,
`executeSchedule` starts nothing, changes and persists nothing, and rearms
with the unchanged schedule. -/
theorem c6_activity_gate (schedules : List Schedule) (s : Schedule)
    (env : ExecEnv) (hact : s.active ≠ some false)
    (hreq : s.requireActivity = some true)
    (hinact : env.lastActivityTime ≤ s.lastExecutionTime.getD 0) :
    executeSchedule schedules s env = ⟨schedules, false, false, [s]⟩ := by
  unfold executeSchedule
  rw [if_neg hact, if_pos (by simp [hreq, hinact])]

/-- Scenario D's schedule: requires activity, last executed
2025-04-11T10:30. -/
def scheduleC6 : Schedule :=
  { id := "c6", name := "Activity-based Task", mode := "code",
    taskInstructions := "x", scheduleType := "time",
    timeInterval := some 30, timeUnit := some "minute",
    startDate := some (civilDays 2025 4 10), startHour := some 9,
    startMinute := some 0, requireActivity := some true,
    lastExecutionTime := some (civilDays 2025 4 11 * dayMs + 10 * hourMs
      + 30 * minuteMs) }

/-- Scenario D's environment: firing at 2025-04-11T11:00, last user
activity 09:30. -/
def envC6 : ExecEnv :=
  ⟨civilDays 2025 4 11 * dayMs + 11 * hourMs,
    civilDays 2025 4 11 * dayMs + 9 * hourMs + 30 * minuteMs, .ok⟩

/-- Witness for C6: Scenario D concretely — a no-op skip that rearms. -/
theorem c6_activity_gate_witness :
    executeSchedule [scheduleC6] scheduleC6 envC6
      = ⟨[scheduleC6], false, false, [scheduleC6]⟩ :=
  c6_activity_gate [scheduleC6] scheduleC6 envC6 (by decide) rfl (by decide)

/-- Scenario D's schedule explicitly deactivated. -/
def scheduleC6x : Schedule :=
  { scheduleC6 with
    id := "c6x",
    active := some false }

/-- Counterexample to claim C6 as stated: with `active := false` the claim's hypotheses
(`requireActivity` true, no activity since last execution) still hold and
nothing is started or modified, but NO rearm is requested — the early
inactive return skips the claimed rearm. -/
theorem c6_counterexample :
    scheduleC6x.requireActivity = some true ∧
    envC6.lastActivityTime ≤ scheduleC6x.lastExecutionTime.getD 0 ∧
    (executeSchedule [scheduleC6x] scheduleC6x envC6).rearmed = [] := by
  decide

/-- Claim C7 (amended: rearm follows the inactivity-skip and failure outcomes
unconditionally for a non-inactive schedule, and the success outcome
whenever the schedule is still present in the store; a schedule deleted
from the store gets no rearm after success).  A `processTask` failure —
invalid mode or runner error — leaves the store untouched, persists
nothing, and still rearms with the original schedule. -/
theorem c7_failure_rearm (schedules : List Schedule) (s : Schedule)
    (env : ExecEnv) (hact : s.active ≠ some false)
    (hfail : env.taskOutcome = .invalidMode ∨ env.taskOutcome = .runnerError) :
    (executeSchedule schedules s env).schedules = schedules ∧
    (executeSchedule schedules s env).persisted = false ∧
    (executeSchedule schedules s env).rearmed = [s] ∧
    ∀ env' : ExecEnv, (∃ x ∈ schedules, x.id = s.id) →
      (executeSchedule schedules s env').rearmed ≠ [] := by
  have hfirst : (executeSchedule schedules s env).schedules = schedules ∧
      (executeSchedule schedules s env).persisted = false ∧
      (executeSchedule schedules s env).rearmed = [s] := by
    unfold executeSchedule
    rw [if_neg hact]
    by_cases hg : (s.requireActivity = some true
        && decide (env.lastActivityTime ≤ s.lastExecutionTime.getD 0)) = true
    · rw [if_pos hg]
      exact ⟨rfl, rfl, rfl⟩
    · rw [if_neg hg]
      rcases hfail with h | h <;> rw [h] <;> exact ⟨rfl, rfl, rfl⟩
  refine ⟨hfirst.1, hfirst.2.1, hfirst.2.2, ?_⟩
  intro env' hexists
  unfold executeSchedule
  rw [if_neg hact]
  by_cases hg : (s.requireActivity = some true
      && decide (env'.lastActivityTime ≤ s.lastExecutionTime.getD 0)) = true
  · rw [if_pos hg]
    simp
  · rw [if_neg hg]
    cases ho : env'.taskOutcome with
    | invalidMode => simp
    | runnerError => simp
    | ok =>
        have hfound := updateSchedule_found schedules env'.now s.id hexists
        cases hres : updateScheduleLastExecution schedules s.id env'.now with
        | mk l' o =>
            rw [hres] at hfound
            cases o with
            | none => simp at hfound
            | some updated => simp

/-- A schedule present in the store for the C7 witness. -/
def scheduleC7 : Schedule :=
  { id := "c7", name := "Retry", mode := "code",
    taskInstructions := "x", scheduleType := "time",
    timeInterval := some 1, timeUnit := some "day",
    startDate := some (civilDays 2025 4 10), startHour := some 9,
    startMinute := some 0 }

/-- Witness for C7: a runner failure leaves the store unchanged,
unpersisted, and rearms; every outcome of this stored schedule rearms. -/
theorem c7_failure_rearm_witness :
    (executeSchedule [scheduleC7] scheduleC7
        ⟨1744365600000, 0, .runnerError⟩).schedules = [scheduleC7] ∧
    (executeSchedule [scheduleC7] scheduleC7
        ⟨1744365600000, 0, .runnerError⟩).persisted = false ∧
    (executeSchedule [scheduleC7] scheduleC7
        ⟨1744365600000, 0, .runnerError⟩).rearmed = [scheduleC7] ∧
    ∀ env' : ExecEnv, (∃ x ∈ [scheduleC7], x.id = scheduleC7.id) →
      (executeSchedule [scheduleC7] scheduleC7 env').rearmed ≠ [] :=
  c7_failure_rearm [scheduleC7] scheduleC7 ⟨1744365600000, 0, .runnerError⟩
    (by decide) (Or.inr rfl)

/-- A schedule absent from the store. -/
def scheduleC7x : Schedule :=
  { id := "c7x", name := "Orphan", mode := "code",
    taskInstructions := "x", scheduleType := "time",
    timeInterval := some 1, timeUnit := some "day",
    startDate := some (civilDays 2025 4 10), startHour := some 9,
    startMinute := some 0 }

/-- Counterexample to claim C7 as stated: a SUCCESSFUL run of a schedule no longer in the
store (`updateSchedule` finds no id and returns undefined) requests NO
rearm — "a rearm follows every outcome (success, skip, or failure)" fails
for the success outcome. -/
theorem c7_counterexample :
    (executeSchedule [] scheduleC7x
        ⟨1744365600000, 0, .ok⟩).startTaskCalled = true ∧
    (executeSchedule [] scheduleC7x ⟨1744365600000, 0, .ok⟩).rearmed = [] := by
  decide

/-- Claim C4 (spec-modelled, see `executeSchedulePolicy`): under the `skip`
policy with the external TaskRunner reporting an active task (and the
activity gate of §4.3 step 1 not preempting, as in Scenario E),
`lastSkippedTime` is set to `now` and persisted, `TaskRunner.startTask` is
never called, and a rearm is requested. -/
theorem c4_skip_policy (s : PolicySchedule) (env : PolicyEnv)
    (hskip : s.taskInteraction = "skip") (hactive : env.hasActiveTask = true)
    (hgate : ¬ (s.base.requireActivity = some true ∧
        env.lastActivityTime ≤ s.base.lastExecutionTime.getD 0)) :
    executeSchedulePolicy s env =
      ⟨{ s with lastSkippedTime := some env.now }, true, false, false, true,
        false⟩ := by
  unfold executeSchedulePolicy
  rw [if_neg (by simpa using hgate), if_pos (by simp [hskip, hactive])]

/-- Scenario E's schedule: the Scenario A schedule under the skip policy. -/
def policyScheduleE : PolicySchedule :=
  ⟨scheduleA, "skip", some 10, none, none⟩

/-- Scenario E's environment: an external task is active. -/
def policyEnvE : PolicyEnv := ⟨1744365600000, 0, true, .ok, "task-123"⟩

/-- Witness for C4: Scenario E concretely. -/
theorem c4_skip_policy_witness :
    executeSchedulePolicy policyScheduleE policyEnvE =
      ⟨{ policyScheduleE with lastSkippedTime := some 1744365600000 }, true,
        false, false, true, false⟩ :=
  c4_skip_policy policyScheduleE policyEnvE rfl rfl (by decide)

/-- The C8 schedule: hourly from Monday 2025-04-07T09:00, Tuesdays only. -/
def scheduleC8x : Schedule :=
  { id := "c8x", name := "Hourly Tue", mode := "code",
    taskInstructions := "x", scheduleType := "time",
    timeInterval := some 1, timeUnit := some "hour",
    selectedDays := some ⟨false, false, true, false, false, false, false⟩,
    startDate := some (civilDays 2025 4 7), startHour := some 9,
    startMinute := some 0 }

/-- Counterexample to claim C8 as stated: with a weekday restriction and a sub-day
interval, a later `now` can yield an EARLIER result — at Monday 12:30 the
candidate Mon 13:00 is filtered to Tuesday 09:00, while at Monday 23:30 the
candidate is already Tuesday 00:00, which passes the filter unchanged. -/
theorem c8_counterexample :
    (1744029000000 : Int) ≤ 1744068600000 ∧
    calculateNextExecutionTime scheduleC8x 1744029000000
      = .date 1744102800000 ∧
    calculateNextExecutionTime scheduleC8x 1744068600000
      = .date 1744070400000 ∧
    ¬ ((1744102800000 : Int) ≤ 1744070400000) := by
  decide

/-- Claim C8 (amended: requires no active weekday restriction — the filter's
reset-to-start-hour step breaks monotonicity for sub-day intervals — plus a
positive interval of a known unit and any recorded last execution not
before the start): non-null results are non-decreasing in `now`. -/
theorem c8_monotone (s : Schedule) {i d : Int} {u : String}
    (h1 : s.timeInterval = some i) (hi : 0 < i)
    (h2 : s.timeUnit = some u) (hu : u = "minute" ∨ u = "hour" ∨ u = "day")
    (h3 : s.startDate = some d) (hday : dayRestrictionActive s = false)
    (hsane : ∀ le ∈ s.lastExecutionTime, startDateTimeOf s d ≤ le)
    {now1 now2 t1 t2 : Int} (h12 : now1 ≤ now2)
    (ha : calculateNextExecutionTime s now1 = .date t1)
    (hb : calculateNextExecutionTime s now2 = .date t2) :
    t1 ≤ t2 := by
  have hims := intervalMsOf_pos hu hi
  rw [calc_no_restrict s now1 h1 h2 h3 hday] at ha
  rw [calc_no_restrict s now2 h1 h2 h3 hday] at hb
  by_cases hex1 : isExpired s now1 = true
  · rw [if_pos hex1] at ha
    cases ha
  rw [if_neg hex1] at ha
  by_cases hex2 : isExpired s now2 = true
  · rw [if_pos hex2] at hb
    cases hb
  rw [if_neg hex2] at hb
  by_cases hf2 : now2 < startDateTimeOf s d
  · -- both clocks before the start: both results are the start itself
    have hf1 : now1 < startDateTimeOf s d := by omega
    rw [if_pos hf1] at ha
    rw [if_pos hf2] at hb
    have e1 : startDateTimeOf s d = t1 := by
      cases ha
      rfl
    have e2 : startDateTimeOf s d = t2 := by
      cases hb
      rfl
    omega
  · rw [if_neg hf2] at hb
    cases hle : s.lastExecutionTime with
    | some le =>
        rw [hle] at hsane
        have hstle := hsane le rfl
        simp [nextTimeRaw, hle, toResult] at hb
        by_cases hf1 : now1 < startDateTimeOf s d
        · rw [if_pos hf1] at ha
          have e1 : startDateTimeOf s d = t1 := by
            cases ha
            rfl
          linarith
        · rw [if_neg hf1] at ha
          simp [nextTimeRaw, hle, toResult] at ha
          linarith
    | none =>
        by_cases hg2 : startDateTimeOf s d < now2
        · simp [nextTimeRaw, hle, hg2, hims.ne', toResult] at hb
          have hc2 : 1 ≤ jsCeilDiv (now2 - startDateTimeOf s d)
              (intervalMsOf u i) := jsCeilDiv_one_le (by omega) hims
          have hm2 : intervalMsOf u i
              ≤ jsCeilDiv (now2 - startDateTimeOf s d) (intervalMsOf u i)
                * intervalMsOf u i :=
            le_mul_of_one_le_left (le_of_lt hims) hc2
          by_cases hf1 : now1 < startDateTimeOf s d
          · rw [if_pos hf1] at ha
            have e1 : startDateTimeOf s d = t1 := by
              cases ha
              rfl
            linarith
          · rw [if_neg hf1] at ha
            by_cases hg1 : startDateTimeOf s d < now1
            · simp [nextTimeRaw, hle, hg1, hims.ne', toResult] at ha
              have hmono : jsCeilDiv (now1 - startDateTimeOf s d)
                    (intervalMsOf u i)
                  ≤ jsCeilDiv (now2 - startDateTimeOf s d)
                    (intervalMsOf u i) :=
                jsCeilDiv_mono (by omega) hims
              have hprod : jsCeilDiv (now1 - startDateTimeOf s d)
                    (intervalMsOf u i) * intervalMsOf u i
                  ≤ jsCeilDiv (now2 - startDateTimeOf s d)
                    (intervalMsOf u i) * intervalMsOf u i :=
                mul_le_mul_of_nonneg_right hmono (le_of_lt hims)
              linarith
            · simp [nextTimeRaw, hle, hg1, toResult] at ha
              linarith
        · -- now2 = start, hence now1 = start or earlier
          simp [nextTimeRaw, hle, hg2, toResult] at hb
          by_cases hf1 : now1 < startDateTimeOf s d
          · rw [if_pos hf1] at ha
            have e1 : startDateTimeOf s d = t1 := by
              cases ha
              rfl
            linarith
          · rw [if_neg hf1] at ha
            have hg1 : ¬ startDateTimeOf s d < now1 := by omega
            simp [nextTimeRaw, hle, hg1, toResult] at ha
            linarith

/-- Witness for C8: for the Scenario A schedule the results at
2025-04-11T10:00 and 2025-04-11T20:00 are both 2025-04-12T09:00, in order. -/
theorem c8_monotone_witness : (1744448400000 : Int) ≤ 1744448400000 :=
  @c8_monotone scheduleA 1 (civilDays 2025 4 10) "day" rfl (by norm_num) rfl
    (Or.inr (Or.inr rfl)) rfl rfl (by simp [scheduleA])
    1744365600000 1744401600000 1744448400000 1744448400000
    (by norm_num) (by decide) (by decide)

end RooScheduler
